import Mathlib

/-!
# Verification of the raven PTY daemon and LSP broker cores

Shallow embedding of the core logic of the `raven` repository:

* `crates/raven-daemon/src/session.rs` — per-session scroll-back buffer
  maintenance performed by the PTY reader thread;
* `crates/raven-daemon/src/server.rs` + `protocol.rs` — the newline-delimited
  JSON command protocol and its connection loop;
* `src-tauri/src/lsp/server.rs` — LSP request/response correlation and the
  pending-request table;
* `src-tauri/src/lsp/manager.rs` — per-document open/change version tracking;
* `src-tauri/src/lsp/transport.rs` — `Content-Length` message framing.

Rust strings are modelled as lists of bytes (`List Nat`, each `< 256`);
operations that can panic in Rust (byte-indexing a `String` off a UTF-8
character boundary) are modelled as returning `none`.
-/

namespace Raven

/-! ## Scroll-back buffer (`crates/raven-daemon/src/session.rs`) -/

/-- `BUFFER_SIZE` from `session.rs`: `64 * 1024` bytes of scroll-back per
session. -/
def BUFFER_SIZE : Nat := 64 * 1024

/-- A byte of a Rust `String`'s UTF-8 representation. -/
abbrev Byte := Nat

/-- Whether a byte is a UTF-8 continuation byte (bit pattern `10xxxxxx`). -/
def isContByte (b : Byte) : Bool := 128 ≤ b && b < 192

/-- Rust `str::is_char_boundary`: index `0` is always a boundary, the end of
the string is a boundary, an in-range index is a boundary iff the byte there
is not a continuation byte, and an out-of-range index is not a boundary. -/
def isCharBoundary (s : List Byte) (i : Nat) : Bool :=
  if i = 0 then true
  else if h : i < s.length then !isContByte s[i]
  else i == s.length

/-- Rust `str::find('\n')` specialised to the newline byte: the byte offset of
the first occurrence of byte 10, if any.  On valid UTF-8 the bytewise search
coincides with the character search because byte 10 only encodes `'\n'`. -/
def findNewline : List Byte → Option Nat
  | [] => none
  | b :: rest => if b == 10 then some 0 else (findNewline rest).map (· + 1)

/-- One append+truncate step of the PTY reader thread (`session.rs`,
`Session::spawn`, reader-thread closure):

```
b.push_str(&data);
if b.len() > BUFFER_SIZE {
    let drain_to = b.len() - BUFFER_SIZE;
    if let Some(pos) = b[drain_to..].find('\n') {
        b.drain(..drain_to + pos + 1);
    } else {
        b.drain(..drain_to);
    }
}
```

Byte-level model. `b[drain_to..]` (and `b.drain(..k)`) panic in Rust when the
index is not a UTF-8 character boundary; a panic is modelled as `none`.
Searching for `'\n'` (byte 10) bytewise coincides with Rust's `str::find`
because in valid UTF-8 the byte 10 only ever encodes `'\n'`. -/
def appendTruncate (B : Nat) (buffer data : List Byte) : Option (List Byte) :=
  let b := buffer ++ data
  if B < b.length then
    let drainTo := b.length - B
    if isCharBoundary b drainTo then
      match findNewline (b.drop drainTo) with
      | some pos =>
          if isCharBoundary b (drainTo + pos + 1) then
            some (b.drop (drainTo + pos + 1))
          else none
      | none => some (b.drop drainTo)
    else none
  else some b

example : appendTruncate 4 [] [97, 98, 99] = some [97, 98, 99] := by decide

-- overflow, no newline anywhere: cut at the exact overflow boundary
example : appendTruncate 4 [97, 98, 99] [100, 101] = some [98, 99, 100, 101] := by decide

-- overflow, newline after the boundary: cut just past that newline
example : appendTruncate 4 [97, 10, 99] [100, 101] = some [99, 100, 101] := by decide

-- overflow landing inside a two-byte character (0xC3 0xA9 = "é"): Rust panics
example : appendTruncate 4 [195, 169, 99] [100, 101] = none := by decide

/-- If `findNewline` finds an offset, that offset is within the list. -/
theorem findNewline_lt_length :
    ∀ {l : List Byte} {i : Nat}, findNewline l = some i → i < l.length := by
  intro l
  induction l with
  | nil => intro i h; simp [findNewline] at h
  | cons a l ih =>
    intro i h
    rw [findNewline] at h
    by_cases ha : a == 10
    · simp [ha] at h
      simp [← h]
    · simp [ha] at h
      obtain ⟨j, hj, rfl⟩ := h
      have := ih hj
      simp only [List.length_cons]
      omega

/-- No newline occurs in a run of a non-newline byte. -/
theorem findNewline_replicate_none (a : Byte) (ha : (a == 10) = false) :
    ∀ n, findNewline (List.replicate n a) = none := by
  intro n
  induction n with
  | zero => simp [findNewline]
  | succ n ih =>
    rw [List.replicate_succ, findNewline, ha]
    simp [ih]

/-- Any completed (non-panicking) append+truncate step leaves at most `B`
bytes in the buffer, whatever the prior contents and chunk were. -/
theorem appendTruncate_length_le {B : Nat} {buffer data out : List Byte}
    (h : appendTruncate B buffer data = some out) : out.length ≤ B := by
  simp only [appendTruncate] at h
  split at h
  · split at h
    · split at h
      · split at h
        · cases h; simp only [List.length_drop]; omega
        · cases h
      · cases h; simp only [List.length_drop]; omega
    · cases h
  · cases h; omega

/-- If the appended buffer overflows and the overflow boundary `drain_to` is
not a UTF-8 character boundary, the reader-thread step panics (the slice
`b[drain_to..]` is taken before any newline search can happen). -/
theorem appendTruncate_eq_none {B : Nat} {buffer data : List Byte}
    (hB : B < (buffer ++ data).length)
    (hb : isCharBoundary (buffer ++ data) ((buffer ++ data).length - B) = false) :
    appendTruncate B buffer data = none := by
  simp only [appendTruncate]
  rw [if_pos hB, hb]
  simp

/-- C4: for every session and every sequence of output chunks appended by the
reader thread, the scroll-back buffer's length is at most 65536 bytes at the
end of each locked append+truncate step (for every step that completes). -/
theorem scrollback_step_bounded (buffer data out : List Byte)
    (h : appendTruncate BUFFER_SIZE buffer data = some out) :
    out.length ≤ BUFFER_SIZE :=
  appendTruncate_length_le h

/-- Witness for `scrollback_step_bounded` at a concrete step. -/
theorem scrollback_step_bounded_witness :
    appendTruncate BUFFER_SIZE [] [97] = some [97] ∧
    ([97] : List Byte).length ≤ BUFFER_SIZE :=
  ⟨by decide, scrollback_step_bounded [] [97] [97] (by decide)⟩

/-- C2 (refuting evaluation): a two-byte UTF-8 character (`é` = `0xC3 0xA9`)
straddling the overflow boundary makes the reader thread's truncation panic:
`b[drain_to..]` with `drain_to = 1` indexes into the middle of the character.
The buffer is the single chunk `"é"` followed by 65535 `'a'`s, total 65537
bytes, one over `BUFFER_SIZE`. -/
theorem truncation_panics_on_split_char :
    appendTruncate BUFFER_SIZE [] (195 :: 169 :: List.replicate 65535 97) = none := by
  have key : ∀ r : List Byte, r.length = 65535 →
      appendTruncate BUFFER_SIZE [] (195 :: 169 :: r) = none := by
    intro r hr
    apply appendTruncate_eq_none
    · simp [hr, BUFFER_SIZE]
    · have hidx : (([] : List Byte) ++ (195 :: 169 :: r)).length - BUFFER_SIZE = 1 := by
        simp [hr, BUFFER_SIZE]
      rw [hidx]
      simp [isCharBoundary, isContByte, hr]
  exact key _ (by rw [List.length_replicate])


/-- Boundary test one position into a list with at least two bytes: it looks
only at the second byte. -/
theorem isCharBoundary_cons_cons_one (a b : Byte) (l : List Byte) :
    isCharBoundary (a :: b :: l) 1 = !isContByte b := by
  have h1 : (1 : Nat) < (a :: b :: l).length := by
    simp only [List.length_cons]
    omega
  simp only [isCharBoundary]
  rw [if_neg (by norm_num), dif_pos h1]
  rfl

/-- Boundary test two positions into a list with at least three bytes. -/
theorem isCharBoundary_cons_cons_cons_two (a b c : Byte) (l : List Byte) :
    isCharBoundary (a :: b :: c :: l) 2 = !isContByte c := by
  have h2 : (2 : Nat) < (a :: b :: c :: l).length := by
    simp only [List.length_cons]
    omega
  simp only [isCharBoundary]
  rw [if_neg (by norm_num), dif_pos h2]
  rfl

theorem findNewline_cons_newline (rest : List Byte) :
    findNewline (10 :: rest) = some 0 := by
  simp [findNewline]

theorem findNewline_cons_of_ne (a : Byte) (ha : (a == 10) = false) (rest : List Byte) :
    findNewline (a :: rest) = (findNewline rest).map (· + 1) := by
  simp [findNewline, ha]

/-- Evaluation rule for an overflowing step whose retained region starts with
no newline at all: the cut happens exactly at the overflow boundary. -/
theorem appendTruncate_eq_some_of_no_newline {B : Nat} {buffer data : List Byte}
    (hB : B < (buffer ++ data).length)
    (hb1 : isCharBoundary (buffer ++ data) ((buffer ++ data).length - B) = true)
    (hf : findNewline ((buffer ++ data).drop ((buffer ++ data).length - B)) = none) :
    appendTruncate B buffer data =
      some ((buffer ++ data).drop ((buffer ++ data).length - B)) := by
  simp only [appendTruncate]
  rw [if_pos hB, hb1, hf]
  rfl

/-- Evaluation rule for an overflowing step whose retained region contains a
newline: the cut happens just past the first one. -/
theorem appendTruncate_eq_some_of_newline {B : Nat} {buffer data : List Byte} {pos : Nat}
    (hB : B < (buffer ++ data).length)
    (hb1 : isCharBoundary (buffer ++ data) ((buffer ++ data).length - B) = true)
    (hf : findNewline ((buffer ++ data).drop ((buffer ++ data).length - B)) = some pos)
    (hb2 : isCharBoundary (buffer ++ data) ((buffer ++ data).length - B + pos + 1) = true) :
    appendTruncate B buffer data =
      some ((buffer ++ data).drop ((buffer ++ data).length - B + pos + 1)) := by
  simp only [appendTruncate]
  rw [if_pos hB, hb1, hf]
  simp only [if_pos hb2]
  rfl

/-- Characterisation of a completed overflowing step: the cut is past the
first newline of the retained region when there is one (leaving
`B - (pos + 1)` bytes), else exactly at the overflow boundary (leaving
exactly `B` bytes). -/
theorem appendTruncate_cut_characterization {B : Nat} {buffer data out : List Byte}
    (hB : B < (buffer ++ data).length)
    (h : appendTruncate B buffer data = some out) :
    (findNewline ((buffer ++ data).drop ((buffer ++ data).length - B)) = none →
      out = (buffer ++ data).drop ((buffer ++ data).length - B) ∧
      out.length = B) ∧
    (∀ pos,
      findNewline ((buffer ++ data).drop ((buffer ++ data).length - B)) = some pos →
      out = (buffer ++ data).drop ((buffer ++ data).length - B + pos + 1) ∧
      out.length = B - (pos + 1)) := by
  simp only [appendTruncate] at h
  rw [if_pos hB] at h
  split at h
  · split at h
    next pos heq =>
      split at h
      · cases h
        refine ⟨fun hnone => ?_, fun pos' hsome => ?_⟩
        · rw [heq] at hnone; cases hnone
        · rw [heq] at hsome
          injection hsome with hpp
          subst hpp
          refine ⟨rfl, ?_⟩
          have hlt := findNewline_lt_length heq
          simp only [List.length_drop] at hlt ⊢
          omega
      · cases h
    next heq =>
      cases h
      refine ⟨fun _ => ⟨rfl, ?_⟩, fun pos' hsome => ?_⟩
      · simp only [List.length_drop]
        omega
      · rw [heq] at hsome; cases hsome
  · cases h

/-- C3 (amended): when an append overflows and the step completes, the drain
endpoint is the overflow boundary advanced past the first newline of the
*retained* region `b[drain_to..]` when that region contains one — leaving
`BUFFER_SIZE - (pos + 1)` bytes — and is exactly the overflow boundary
otherwise, leaving exactly `BUFFER_SIZE` bytes.  (The code searches the
retained region, not the overflow region as the original claim says.) -/
theorem truncation_cut_amended (buffer data out : List Byte)
    (hB : BUFFER_SIZE < (buffer ++ data).length)
    (h : appendTruncate BUFFER_SIZE buffer data = some out) :
    (findNewline ((buffer ++ data).drop ((buffer ++ data).length - BUFFER_SIZE)) = none →
      out = (buffer ++ data).drop ((buffer ++ data).length - BUFFER_SIZE) ∧
      out.length = BUFFER_SIZE) ∧
    (∀ pos,
      findNewline ((buffer ++ data).drop ((buffer ++ data).length - BUFFER_SIZE)) = some pos →
      out = (buffer ++ data).drop ((buffer ++ data).length - BUFFER_SIZE + pos + 1) ∧
      out.length = BUFFER_SIZE - (pos + 1)) :=
  appendTruncate_cut_characterization hB h

/-- Witness for `truncation_cut_amended`: a 65537-byte all-`'a'` buffer with
no newline anywhere is cut exactly at the overflow boundary, retaining
exactly `BUFFER_SIZE` bytes. -/
theorem truncation_cut_amended_witness :
    appendTruncate BUFFER_SIZE [] (97 :: 97 :: List.replicate 65535 97) =
      some (97 :: List.replicate 65535 97) ∧
    (97 :: List.replicate 65535 (97 : Byte)).length = BUFFER_SIZE := by
  have hlen : (([] : List Byte) ++ (97 :: 97 :: List.replicate 65535 97)).length = 65537 := by
    rw [List.nil_append, List.length_cons, List.length_cons, List.length_replicate]
  have hB : BUFFER_SIZE <
      (([] : List Byte) ++ (97 :: 97 :: List.replicate 65535 97)).length := by
    rw [hlen]; norm_num [BUFFER_SIZE]
  have hidx : (([] : List Byte) ++ (97 :: 97 :: List.replicate 65535 97)).length -
      BUFFER_SIZE = 1 := by
    rw [hlen]; norm_num [BUFFER_SIZE]
  have hdrop : (([] : List Byte) ++ (97 :: 97 :: List.replicate 65535 97)).drop
      ((([] : List Byte) ++ (97 :: 97 :: List.replicate 65535 97)).length - BUFFER_SIZE) =
      97 :: List.replicate 65535 97 := by
    rw [hidx, List.nil_append, List.drop_one, List.tail_cons]
  have hb1 : isCharBoundary (([] : List Byte) ++ (97 :: 97 :: List.replicate 65535 97))
      ((([] : List Byte) ++ (97 :: 97 :: List.replicate 65535 97)).length - BUFFER_SIZE) =
      true := by
    rw [hidx, List.nil_append, isCharBoundary_cons_cons_one]
    decide
  have hf : findNewline ((([] : List Byte) ++ (97 :: 97 :: List.replicate 65535 97)).drop
      ((([] : List Byte) ++ (97 :: 97 :: List.replicate 65535 97)).length - BUFFER_SIZE)) =
      none := by
    rw [hdrop, findNewline_cons_of_ne 97 (by decide),
      findNewline_replicate_none 97 (by decide)]
    rfl
  have hsome := appendTruncate_eq_some_of_no_newline hB hb1 hf
  rw [hdrop] at hsome
  exact ⟨hsome, ((truncation_cut_amended _ _ _ hB hsome).1 hf).2⟩

/-- C3 (counterexample): buffer `"a\na" ++ "a" * 65534` (65537 bytes).  The
overflow region (the oldest `len - B = 1` bytes) is `"a"` and contains no
newline, so the original claim requires the cut to happen exactly at the
overflow boundary, retaining exactly `B = 65536` bytes; but the code finds
the newline at offset 0 of the *retained* region and drains through it,
retaining only 65535 bytes. -/
theorem truncation_cut_counterexample :
    findNewline ((([] : List Byte) ++ (97 :: 10 :: 97 :: List.replicate 65534 97)).take
      ((([] : List Byte) ++ (97 :: 10 :: 97 :: List.replicate 65534 97)).length -
        BUFFER_SIZE)) = none ∧
    appendTruncate BUFFER_SIZE [] (97 :: 10 :: 97 :: List.replicate 65534 97) =
      some (97 :: List.replicate 65534 97) ∧
    (97 :: List.replicate 65534 (97 : Byte)).length ≠ BUFFER_SIZE := by
  have hlen : (([] : List Byte) ++ (97 :: 10 :: 97 :: List.replicate 65534 97)).length =
      65537 := by
    rw [List.nil_append, List.length_cons, List.length_cons, List.length_cons,
      List.length_replicate]
  have hB : BUFFER_SIZE <
      (([] : List Byte) ++ (97 :: 10 :: 97 :: List.replicate 65534 97)).length := by
    rw [hlen]; norm_num [BUFFER_SIZE]
  have hidx : (([] : List Byte) ++ (97 :: 10 :: 97 :: List.replicate 65534 97)).length -
      BUFFER_SIZE = 1 := by
    rw [hlen]; norm_num [BUFFER_SIZE]
  have hidx2 : (([] : List Byte) ++ (97 :: 10 :: 97 :: List.replicate 65534 97)).length -
      BUFFER_SIZE + 0 + 1 = 2 := by
    rw [hidx]
  have hb1 : isCharBoundary (([] : List Byte) ++ (97 :: 10 :: 97 :: List.replicate 65534 97))
      ((([] : List Byte) ++ (97 :: 10 :: 97 :: List.replicate 65534 97)).length -
        BUFFER_SIZE) = true := by
    rw [hidx, List.nil_append, isCharBoundary_cons_cons_one]
    decide
  have hf : findNewline ((([] : List Byte) ++
      (97 :: 10 :: 97 :: List.replicate 65534 97)).drop
      ((([] : List Byte) ++ (97 :: 10 :: 97 :: List.replicate 65534 97)).length -
        BUFFER_SIZE)) = some 0 := by
    rw [hidx, List.nil_append, List.drop_one, List.tail_cons, findNewline_cons_newline]
  have hb2 : isCharBoundary (([] : List Byte) ++ (97 :: 10 :: 97 :: List.replicate 65534 97))
      ((([] : List Byte) ++ (97 :: 10 :: 97 :: List.replicate 65534 97)).length -
        BUFFER_SIZE + 0 + 1) = true := by
    rw [hidx2, List.nil_append, isCharBoundary_cons_cons_cons_two]
    decide
  have hsome := appendTruncate_eq_some_of_newline hB hb1 hf hb2
  have hdrop2 : (([] : List Byte) ++ (97 :: 10 :: 97 :: List.replicate 65534 97)).drop
      ((([] : List Byte) ++ (97 :: 10 :: 97 :: List.replicate 65534 97)).length -
        BUFFER_SIZE + 0 + 1) = 97 :: List.replicate 65534 97 := by
    rw [hidx2, List.nil_append]
    rfl
  rw [hdrop2] at hsome
  refine ⟨?_, hsome, ?_⟩
  · rw [hidx, List.nil_append]
    rfl
  · rw [List.length_cons, List.length_replicate]
    norm_num [BUFFER_SIZE]

/-! ## LSP request correlation (`src-tauri/src/lsp/server.rs`)

`LanguageServer::request_with_timeout` registers `id → reply-channel` in the
pending table, sends the request, blocks on `recv_timeout`, and is supposed
to clean the entry up afterwards.  Only the set of registered ids is
modelled (the reply-channel values never influence membership). -/

/-- Outcome of the blocking `receiver.recv_timeout(timeout)` call.  A
`response` outcome means the reader thread observed a response carrying this
request's id and delivered it on the channel — having first removed the id
from the pending table (`server.rs` reader-thread closure:
`pending.remove(&id)` before `req.sender.send(result)`).  `ok` records
whether the response was a result or a `ResponseError`.  A `timeout` outcome
means nothing arrived within the timeout. -/
inductive RecvOutcome where
  | timeout
  | response (ok : Bool)

/-- Effect of `LanguageServer::request_with_timeout` on the pending table,
i/o abstracted to outcomes (`sendOk`: whether `send_request` succeeded).
Mirrors the source's control flow: each `?` operator is an early return
carrying the pending table as it stands at that point.  Returns
`(call succeeded, pending table after the call returns)`. -/
def requestWithTimeout (pending : Finset Nat) (id : Nat) (sendOk : Bool)
    (outcome : RecvOutcome) : Bool × Finset Nat :=
  -- { let mut pending = self.pending.lock(); pending.insert(id, ...); }
  let p1 := insert id pending
  -- writer.send_request(&request).map_err(...)?   -- early return on error
  if !sendOk then (false, p1)
  else
    match outcome with
    -- receiver.recv_timeout(timeout).map_err(...)?  -- early return on
    -- timeout; the "Clean up pending (in case of timeout race)" block
    -- below this `?` in the source is never reached on this path
    | RecvOutcome.timeout => (false, p1)
    | RecvOutcome.response ok =>
        -- reader thread already removed the id when routing the response
        let p2 := p1.erase id
        -- "Clean up pending (in case of timeout race)" block
        let p3 := p2.erase id
        (ok, p3)

/-- C1 (refuting evaluation): a call that returns the timeout error leaves
its id in the pending table — the cleanup block is written after the `?`
early return on `recv_timeout`, so the timeout path never runs it.  Shown on
request id 7 against an initially empty table: the call fails and the table
still contains 7. -/
theorem timeout_leaves_id_pending :
    (requestWithTimeout ∅ 7 true RecvOutcome.timeout).1 = false ∧
    7 ∈ (requestWithTimeout ∅ 7 true RecvOutcome.timeout).2 := by
  decide

/-- On response arrival the id is removed (the non-broken half of C1). -/
theorem response_removes_id_pending (pending : Finset Nat) (id : Nat) (ok : Bool) :
    id ∉ (requestWithTimeout pending id true (RecvOutcome.response ok)).2 := by
  simp [requestWithTimeout]

/-! ## LSP document tracking (`src-tauri/src/lsp/manager.rs`)

`LspManager::open_document` / `change_document` maintain the per-project
table `uri → OpenDocument { version: i32 }` and send `didOpen` / `didChange`
notifications.  The model keys directly on the uri (the callers form it as
`format!("file://{}", file_path)`), assumes the project's server is running
(otherwise both functions error before touching the table), and elides the
`language_id` field of `didOpen` — no claim inspects it.  The `version`
field is an `i32`; `doc.version += 1` is modelled with release-mode
(two's-complement wrap-around) semantics. -/

/-- Two's-complement wrap-around into the `i32` range
`[-2^31, 2^31 - 1]` (`2147483648 = 2^31`, `4294967296 = 2^32`). -/
def wrap32 (x : Int) : Int := (x + 2147483648) % 4294967296 - 2147483648

/-- `wrap32` is the identity on the `i32` range. -/
theorem wrap32_eq_self {x : Int} (h1 : -2147483648 ≤ x) (h2 : x < 2147483648) :
    wrap32 x = x := by
  have h3 : (0 : Int) ≤ x + 2147483648 := by omega
  have h4 : x + 2147483648 < 4294967296 := by omega
  unfold wrap32
  rw [Int.emod_eq_of_lt h3 h4]
  omega

/-- An outgoing `textDocument/didOpen` or `textDocument/didChange`
notification, reduced to the fields the document state machine controls:
uri, version and (full-sync) text. -/
inductive DocNotif where
  | didOpen (uri : String) (version : Int) (text : String)
  | didChange (uri : String) (version : Int) (text : String)
deriving DecidableEq

/-- The per-project open-document table (`ProjectLsp.documents`,
`HashMap<String, OpenDocument>`), as an association list where the newest
binding for a uri shadows older ones. -/
abbrev DocMap := List (String × Int)

/-- `HashMap::insert` (used by both `open_document` and the `get_mut`
increment): bind `uri` to `v`, shadowing any previous binding. -/
def insertDoc (docs : DocMap) (uri : String) (v : Int) : DocMap :=
  (uri, v) :: docs

/-- `LspManager::open_document`: no-op when the uri is already tracked, else
send `didOpen` with version 1 and insert the document at version 1.
Returns the updated table and the notifications sent by the call. -/
def open_document (docs : DocMap) (uri : String) (content : String) :
    DocMap × List DocNotif :=
  -- { let docs = project.documents.lock(); if docs.contains_key(&uri) { return Ok(()); } }
  if (docs.lookup uri).isSome then (docs, [])
  else
    -- notify("textDocument/didOpen", ... version: 1 ...) then insert
    (insertDoc docs uri 1, [DocNotif.didOpen uri 1 content])

/-- `LspManager::change_document`: when the uri is tracked, increment the
stored version and send `didChange` carrying it; when untracked, upgrade to
`open_document`. -/
def change_document (docs : DocMap) (uri : String) (content : String) :
    DocMap × List DocNotif :=
  match docs.lookup uri with
  | some v =>
      -- doc.version += 1; doc.version   (i32 increment)
      let v1 := wrap32 (v + 1)
      (insertDoc docs uri v1, [DocNotif.didChange uri v1 content])
  | none => open_document docs uri content

/-- A sequence of `change_document` calls for one uri, with the given
contents, accumulating the notifications sent. -/
def changeSeq (docs : DocMap) (uri : String) : List String → DocMap × List DocNotif
  | [] => (docs, [])
  | content :: rest =>
      let r1 := change_document docs uri content
      let r2 := changeSeq r1.1 uri rest
      (r2.1, r1.2 ++ r2.2)

example :
    (changeSeq (insertDoc [] "u" 1) "u" ["a", "b", "c"]).2 =
      [DocNotif.didChange "u" 2 "a", DocNotif.didChange "u" 3 "b",
       DocNotif.didChange "u" 4 "c"] := by
  decide

/-- Looking up a freshly inserted binding yields it. -/
theorem lookup_insertDoc_self (docs : DocMap) (uri : String) (v : Int) :
    (insertDoc docs uri v).lookup uri = some v := by
  simp [insertDoc, List.lookup]

/-- While a document stays tracked with in-range versions, a run of `n`
changes sends exactly `n` `didChange` notifications with versions
`v+1, …, v+n`, and leaves the stored version at `v + n`. -/
theorem changeSeq_tracked (uri : String) :
    ∀ (contents : List String) (docs : DocMap) (v : Int),
      docs.lookup uri = some v → 1 ≤ v →
      v + contents.length ≤ 2147483647 →
      (changeSeq docs uri contents).1.lookup uri = some (v + contents.length) ∧
      (changeSeq docs uri contents).2.length = contents.length ∧
      ∀ i : Nat, (changeSeq docs uri contents).2[i]? =
        (contents[i]?).map (fun c => DocNotif.didChange uri (v + 1 + i) c) := by
  intro contents
  induction contents with
  | nil =>
    intro docs v hv _ _
    refine ⟨by simpa using hv, rfl, fun i => ?_⟩
    simp [changeSeq]
  | cons c rest ih =>
    intro docs v hv hv1 hbound
    have hlen : ((c :: rest).length : Int) = rest.length + 1 := by
      simp
    have hwrap : wrap32 (v + 1) = v + 1 := by
      apply wrap32_eq_self <;> omega
    have hstep : change_document docs uri c =
        (insertDoc docs uri (v + 1), [DocNotif.didChange uri (v + 1) c]) := by
      simp [change_document, hv, hwrap]
    have hlook : (insertDoc docs uri (v + 1)).lookup uri = some (v + 1) :=
      lookup_insertDoc_self ..
    have hih := ih (insertDoc docs uri (v + 1)) (v + 1) hlook (by omega) (by omega)
    refine ⟨?_, ?_, ?_⟩
    · show (changeSeq (change_document docs uri c).1 uri rest).1.lookup uri = _
      rw [hstep, hih.1]
      congr 1
      simp only [List.length_cons]
      push_cast
      ring
    · show ((change_document docs uri c).2 ++
        (changeSeq (change_document docs uri c).1 uri rest).2).length = _
      rw [hstep]
      simp [hih.2.1]
    · intro i
      show ((change_document docs uri c).2 ++
        (changeSeq (change_document docs uri c).1 uri rest).2)[i]? = _
      rw [hstep]
      cases i with
      | zero => simp
      | succ j =>
        simp only [List.cons_append, List.nil_append, List.getElem?_cons_succ]
        rw [hih.2.2 j]
        have : v + 1 + 1 + (j : Int) = v + 1 + ((j : Nat) + 1 : Nat) := by
          push_cast
          ring
        rw [this]

/-- Evaluation rule for `change_document` on a tracked uri. -/
theorem change_document_tracked (docs : DocMap) (uri content : String) (v : Int)
    (h : docs.lookup uri = some v) :
    change_document docs uri content =
      (insertDoc docs uri (wrap32 (v + 1)),
        [DocNotif.didChange uri (wrap32 (v + 1)) content]) := by
  simp [change_document, h]

/-- Splitting a run of changes. -/
theorem changeSeq_append (uri : String) (l1 l2 : List String) :
    ∀ docs : DocMap, changeSeq docs uri (l1 ++ l2) =
      ((changeSeq (changeSeq docs uri l1).1 uri l2).1,
        (changeSeq docs uri l1).2 ++ (changeSeq (changeSeq docs uri l1).1 uri l2).2) := by
  induction l1 with
  | nil => intro docs; simp [changeSeq]
  | cons c rest ih => intro docs; simp [changeSeq, ih, List.append_assoc]

/-- A run of a single change. -/
theorem changeSeq_singleton (docs : DocMap) (uri content : String) :
    changeSeq docs uri [content] = change_document docs uri content := by
  simp [changeSeq]

/-- C5 (amended): for any uri tracked at version 1 (as recorded by
`open_document`) and any subsequent run of `n ≤ 2^31 - 2` `change_document`
calls while it stays tracked, the `didChange` notification at 0-indexed
position `i` carries version `i + 2`, so the versions sent are strictly
increasing starting at 2.  The bound keeps the `i32` version counter from
overflowing; without it the counter wraps (see the counterexample). -/
theorem change_versions_increasing (docs : DocMap) (uri : String)
    (contents : List String) (i : Nat)
    (hopen : docs.lookup uri = some 1)
    (hbound : (contents.length : Int) ≤ 2147483646) :
    (changeSeq docs uri contents).2[i]? =
      (contents[i]?).map (fun c => DocNotif.didChange uri ((i : Int) + 2) c) := by
  have h := (changeSeq_tracked uri contents docs 1 hopen (by norm_num) (by omega)).2.2 i
  have heq : (1 : Int) + 1 + (i : Int) = (i : Int) + 2 := by ring
  rw [heq] at h
  exact h

/-- Witness for `change_versions_increasing`: the second change after an
open carries version 3. -/
theorem change_versions_increasing_witness :
    (changeSeq (insertDoc [] "file:///a.rs" 1) "file:///a.rs" ["x", "y"]).2[1]? =
      some (DocNotif.didChange "file:///a.rs" 3 "y") := by
  have h := change_versions_increasing (insertDoc [] "file:///a.rs" 1) "file:///a.rs"
    ["x", "y"] 1 (lookup_insertDoc_self ..) (by norm_num)
  norm_num at h
  exact h

/-- C5 (counterexample): the claim quantifies over *every* run length `n`.
The version is an `i32`, so after `2^31 - 1` changes the increment wraps:
the last `didChange` (0-indexed position `2147483646`, 1-indexed number
`i = 2147483647`) carries version `-2147483648`, not `i + 1 = 2147483648`. -/
theorem change_version_overflow_counterexample :
    (changeSeq (insertDoc [] "file:///a.rs" 1) "file:///a.rs"
        (List.replicate 2147483647 "x")).2[2147483646]? =
      some (DocNotif.didChange "file:///a.rs" (-2147483648) "x") ∧
    (-2147483648 : Int) ≠ 2147483646 + 2 := by
  refine ⟨?_, by norm_num⟩
  have hsplit : List.replicate 2147483647 "x" =
      List.replicate 2147483646 "x" ++ List.replicate 1 "x" := by
    rw [← List.replicate_add]
  rw [hsplit, changeSeq_append]
  have h1 := changeSeq_tracked "file:///a.rs" (List.replicate 2147483646 "x")
    (insertDoc [] "file:///a.rs" 1) 1 (lookup_insertDoc_self ..) (by norm_num)
    (by rw [List.length_replicate]; norm_num)
  have hlen1 : (changeSeq (insertDoc [] "file:///a.rs" 1) "file:///a.rs"
      (List.replicate 2147483646 "x")).2.length = 2147483646 := by
    rw [h1.2.1, List.length_replicate]
  have hlook1 : (changeSeq (insertDoc [] "file:///a.rs" 1) "file:///a.rs"
      (List.replicate 2147483646 "x")).1.lookup "file:///a.rs" = some 2147483647 := by
    rw [h1.1, List.length_replicate]
    norm_num
  rw [List.getElem?_append_right (by rw [hlen1])]
  rw [hlen1]
  have hwrap : wrap32 (2147483647 + 1) = -2147483648 := by decide
  have hrep1 : List.replicate 1 "x" = ["x"] := List.replicate_one ..
  rw [hrep1, changeSeq_singleton, change_document_tracked _ _ _ _ hlook1, hwrap]
  rw [Nat.sub_self]
  rfl

/-- C6: `change_document` on a uri that is not in the project's open-document
table sends exactly one `didOpen` notification with version 1, inserts the
document at version 1, and sends no `didChange` for that call. -/
theorem change_untracked_upgrades_to_open (docs : DocMap) (uri content : String)
    (h : docs.lookup uri = none) :
    (change_document docs uri content).2 = [DocNotif.didOpen uri 1 content] ∧
    (change_document docs uri content).1.lookup uri = some 1 := by
  simp [change_document, h, open_document, lookup_insertDoc_self]

/-- Witness for `change_untracked_upgrades_to_open` on an empty table. -/
theorem change_untracked_upgrades_to_open_witness :
    (change_document [] "file:///a.rs" "x").2 = [DocNotif.didOpen "file:///a.rs" 1 "x"] ∧
    (change_document [] "file:///a.rs" "x").1.lookup "file:///a.rs" = some 1 :=
  change_untracked_upgrades_to_open [] "file:///a.rs" "x" rfl

/-! ## LSP Content-Length framing (`src-tauri/src/lsp/transport.rs`)

`read_message` reads header lines until a blank line, remembering the last
`Content-Length` value, then reads exactly that many body bytes and hands
them to `serde_json::from_slice`.  The JSON parse itself is the external
serde_json library and is not remodelled; the framing under test determines
exactly which bytes reach it, so the model returns those body bytes. -/

/-- `BufRead::read_line` on a byte stream: consume bytes up to and including
the first `'\n'` (byte 10); at end of input return whatever remains.
Returns `(line, rest)`.  (The UTF-8 validation Rust performs on the line is
not modelled; the headers quantified over are ASCII.) -/
def readLine : List Byte → List Byte × List Byte
  | [] => ([], [])
  | b :: rest =>
      if b == 10 then ([10], rest)
      else
        let r := readLine rest
        (b :: r.1, r.2)

/-- `char::is_whitespace` restricted to single-byte characters: bytes 9–13
and 32. -/
def isWsByte (b : Byte) : Bool := b == 32 || (9 ≤ b && b ≤ 13)

/-- `str::trim`: strip whitespace from both ends. -/
def trimBytes (l : List Byte) : List Byte :=
  ((l.dropWhile isWsByte).reverse.dropWhile isWsByte).reverse

/-- The bytes of `"Content-Length:"`. -/
def contentLengthHeader : List Byte :=
  [67, 111, 110, 116, 101, 110, 116, 45, 76, 101, 110, 103, 116, 104, 58]

/-- `str::strip_prefix` on bytes. -/
def stripPrefixBytes (p l : List Byte) : Option (List Byte) :=
  if p.isPrefixOf l then some (l.drop p.length) else none

def isDigitByte (b : Byte) : Bool := 48 ≤ b && b ≤ 57

/-- `str::parse::<usize>`: an optional leading `'+'` followed by one or more
ASCII digits. -/
def parseUsize (l : List Byte) : Option Nat :=
  let l' := match l with
    | 43 :: rest => rest
    | _ => l
  if l' ≠ [] ∧ l'.all isDigitByte then
    some (l'.foldl (fun acc d => acc * 10 + (d - 48)) 0)
  else none

/-- The header loop of `read_message`, with explicit fuel.  Each iteration
that continues consumes at least one byte, so `s.length + 1` fuel is enough;
`none` models both the `io::Error` returns and the unbounded spin the Rust
loop enters when the input ends before the blank line (`read_line` then
yields 0 bytes forever). -/
def readHeaders : Nat → List Byte → Option Nat → Option (Option Nat × List Byte)
  | 0, _, _ => none
  | fuel + 1, s, acc =>
      let r := readLine s
      if r.1 = [] then none
      else if r.1 = [13, 10] ∨ r.1 = [10] then some (acc, r.2)
      else
        match stripPrefixBytes contentLengthHeader (trimBytes r.1) with
        | some lenStr =>
            match parseUsize (trimBytes lenStr) with
            | some n => readHeaders fuel r.2 (some n)
            | none => none
        | none => readHeaders fuel r.2 acc

/-- `read_message` (`transport.rs`): parse headers, then `read_exact` the
announced number of body bytes.  Returns the bytes handed to
`serde_json::from_slice`. -/
def read_message (s : List Byte) : Option (List Byte) :=
  match readHeaders (s.length + 1) s none with
  | none => none
  | some (none, _) => none
  | some (some n, rest) =>
      if n ≤ rest.length then some (rest.take n) else none

/-- The bytes of a Lean string (all claim inputs are ASCII, so `Char.toNat`
is the UTF-8 byte). -/
def strBytes (s : String) : List Byte := s.data.map Char.toNat

example : read_message (strBytes "Content-Length: 5\r\n\r\nhello") =
    some (strBytes "hello") := by decide

example : read_message (strBytes "Content-Length: 5\r\nContent-Type: application/json\r\n\r\nhello") =
    some (strBytes "hello") := by decide

-- missing Content-Length header is an error
example : read_message (strBytes "Content-Type: application/json\r\n\r\nhello") = none := by
  decide

-- body shorter than announced: read_exact fails
example : read_message (strBytes "Content-Length: 6\r\n\r\nhello") = none := by decide

/-- `readLine` on a newline-terminated line followed by more input. -/
theorem readLine_append (pre : List Byte) (hpre : 10 ∉ pre) (rest : List Byte) :
    readLine (pre ++ 10 :: rest) = (pre ++ [10], rest) := by
  induction pre with
  | nil => simp [readLine]
  | cons b pre ih =>
    simp only [List.mem_cons, not_or] at hpre
    have hb : (b == 10) = false := by
      simp only [beq_eq_false_iff_ne]
      exact fun hh => hpre.1 hh.symm
    simp [readLine, hb, ih hpre.2]

/-- A nonempty line with its newline is never the blank line unless its
content is empty or a single `'\r'`. -/
theorem line_not_blank {h : List Byte} (h1 : h ≠ []) (h2 : h ≠ [13]) :
    ¬(h ++ [10] = [13, 10] ∨ h ++ [10] = [10]) := by
  rintro (heq | heq)
  · apply h2
    have := congrArg List.dropLast heq
    simpa using this
  · apply h1
    have := congrArg List.dropLast heq
    simpa using this

/-- Trimming absorbs the newline the line reader leaves at the end. -/
theorem trimBytes_append_newline (l : List Byte) :
    trimBytes (l ++ [10]) = trimBytes l := by
  unfold trimBytes
  rw [List.dropWhile_append]
  by_cases hl : (l.dropWhile isWsByte).isEmpty
  · have hl' := List.isEmpty_iff.mp hl
    simp [hl, hl', List.dropWhile_cons, isWsByte]
  · simp only [hl]
    rw [if_neg (by simp)]
    rw [List.reverse_append]
    simp [List.dropWhile_cons, isWsByte]

/-- Skipping non-`Content-Length` header lines preserves the accumulator and
stops at the blank line. -/
theorem readHeaders_skip (hs : List (List Byte))
    (hhs : ∀ h ∈ hs, 10 ∉ h ∧ h ≠ [] ∧ h ≠ [13] ∧
      stripPrefixBytes contentLengthHeader (trimBytes h) = none) :
    ∀ (fuel : Nat) (acc : Option Nat) (tail : List Byte),
      ((hs.map (fun x => x ++ [10])).flatten ++ 13 :: 10 :: tail).length < fuel →
      readHeaders fuel ((hs.map (fun x => x ++ [10])).flatten ++ 13 :: 10 :: tail) acc =
        some (acc, tail) := by
  induction hs with
  | nil =>
    intro fuel acc tail hfuel
    simp only [List.map_nil, List.flatten_nil, List.nil_append] at hfuel ⊢
    cases fuel with
    | zero => omega
    | succ f =>
      have hrl : readLine (13 :: 10 :: tail) = ([13, 10], tail) :=
        readLine_append [13] (by decide) tail
      simp [readHeaders, hrl]
  | cons h hs ih =>
    intro fuel acc tail hfuel
    obtain ⟨hnl, hne, hncr, hnstrip⟩ := hhs h (by simp)
    have hhs' : ∀ h' ∈ hs, 10 ∉ h' ∧ h' ≠ [] ∧ h' ≠ [13] ∧
        stripPrefixBytes contentLengthHeader (trimBytes h') = none :=
      fun h' hmem => hhs h' (by simp [hmem])
    have hstream : ((h :: hs).map (fun x => x ++ [10])).flatten ++ 13 :: 10 :: tail
        = h ++ 10 :: ((hs.map (fun x => x ++ [10])).flatten ++ 13 :: 10 :: tail) := by
      simp [List.append_assoc]
    rw [hstream] at hfuel ⊢
    simp only [List.length_append, List.length_cons] at hfuel
    cases fuel with
    | zero => omega
    | succ f =>
      have hrl := readLine_append h hnl ((hs.map (fun x => x ++ [10])).flatten ++ 13 :: 10 :: tail)
      simp only [readHeaders, hrl]
      rw [if_neg (by simp), if_neg (line_not_blank hne hncr),
        trimBytes_append_newline, hnstrip]
      exact ih hhs' f acc tail
        (by simp only [List.length_append, List.length_cons]; omega)

/-- C7: for every byte stream consisting of a `Content-Length` header line
(any line whose trimmed form strips the prefix to something parsing as `n`),
zero or more additional header lines (such as `Content-Type`) that are not
blank and not `Content-Length`, a blank line, and a body of exactly `n`
bytes, `read_message` returns exactly the body bytes — the bytes passed to
`serde_json::from_slice`. -/
theorem read_message_framed (clLine lenStr body : List Byte)
    (hs : List (List Byte)) (n : Nat)
    (hcl_nl : 10 ∉ clLine)
    (hstrip : stripPrefixBytes contentLengthHeader (trimBytes clLine) = some lenStr)
    (hparse : parseUsize (trimBytes lenStr) = some n)
    (hhs : ∀ h ∈ hs, 10 ∉ h ∧ h ≠ [] ∧ h ≠ [13] ∧
      stripPrefixBytes contentLengthHeader (trimBytes h) = none)
    (hbody : body.length = n) :
    read_message (clLine ++ 10 ::
      ((hs.map (fun x => x ++ [10])).flatten ++ 13 :: 10 :: body)) = some body := by
  have hne : clLine ≠ [] := by
    rintro rfl
    have htrim : trimBytes ([] : List Byte) = [] := by decide
    rw [htrim] at hstrip
    have : stripPrefixBytes contentLengthHeader [] = none := by decide
    rw [this] at hstrip
    cases hstrip
  have hncr : clLine ≠ [13] := by
    rintro rfl
    have htrim : trimBytes ([13] : List Byte) = [] := by decide
    rw [htrim] at hstrip
    have : stripPrefixBytes contentLengthHeader [] = none := by decide
    rw [this] at hstrip
    cases hstrip
  have hrl := readLine_append clLine hcl_nl ((hs.map (fun x => x ++ [10])).flatten ++ 13 :: 10 :: body)
  have hH : readHeaders
      ((clLine ++ 10 ::
        ((hs.map (fun x => x ++ [10])).flatten ++ 13 :: 10 :: body)).length + 1)
      (clLine ++ 10 :: ((hs.map (fun x => x ++ [10])).flatten ++ 13 :: 10 :: body)) none =
      some (some n, body) := by
    simp only [readHeaders, hrl]
    rw [if_neg (by simp), if_neg (line_not_blank hne hncr)]
    simp only [trimBytes_append_newline, hstrip, hparse]
    exact readHeaders_skip hs hhs _ (some n) body
      (by simp only [List.length_append, List.length_cons]; omega)
  simp only [read_message, hH]
  rw [if_pos (by omega)]
  rw [← hbody, List.take_length]

/-- Witness for `read_message_framed`: the spec's S7 scenario with the extra
`Content-Type` header; the 13-byte body parses (externally) to the JSON
object the spec names. -/
theorem read_message_framed_witness :
    read_message
      (strBytes "Content-Length: 13\r\nContent-Type: application/json\r\n\r\n\x7b\"test\": 123\x7d") =
      some (strBytes "\x7b\"test\": 123\x7d") := by
  have hstream :
      strBytes "Content-Length: 13\r\nContent-Type: application/json\r\n\r\n\x7b\"test\": 123\x7d" =
      strBytes "Content-Length: 13\r" ++ 10 ::
        (([strBytes "Content-Type: application/json\r"].map (fun x => x ++ [10])).flatten ++
          13 :: 10 :: strBytes "\x7b\"test\": 123\x7d") := by
    decide
  rw [hstream]
  exact read_message_framed (strBytes "Content-Length: 13\r") (strBytes " 13")
    (strBytes "\x7b\"test\": 123\x7d") [strBytes "Content-Type: application/json\r"] 13
    (by decide) (by decide) (by decide)
    (by intro h hmem; simp only [List.mem_singleton] at hmem; subst hmem; refine ⟨?_, ?_, ?_, ?_⟩ <;> decide)
    (by decide)

/-! ## Daemon wire protocol (`crates/raven-daemon/src/protocol.rs`)

`ClientMessage` and `ServerMessage` derive serde `Serialize`/`Deserialize`
with `#[serde(tag = "type", content = "payload")]` (adjacently tagged).  The
JSON value space and the encoding those derives produce are modelled below:
unit variants carry no `payload` key, struct variants carry an object
payload keyed by field name, `Option<_>` fields encode `None` as `null`
(and tolerate a missing key on decode), `u16` and `i32` are JSON numbers
checked against their ranges on decode. -/

/-- JSON values.  Numbers are restricted to integers: every numeric field of
this wire protocol is `u16` or `i32`. -/
inductive Json where
  | null
  | bool (b : Bool)
  | num (n : Int)
  | str (s : String)
  | arr (elems : List Json)
  | obj (fields : List (String × Json))

/-- The `u16` values. -/
abbrev U16 := Fin 65536

/-- The `i32` values. -/
def Int32 := {x : Int // -2147483648 ≤ x ∧ x < 2147483648}

/-- `SessionInfo` (`protocol.rs`). -/
structure SessionInfo where
  id : String
  cwd : Option String
  rows : U16
  cols : U16
  alive : Bool
deriving DecidableEq

/-- `ClientMessage` (`protocol.rs`). -/
inductive ClientMessage where
  | Spawn (session_id : String) (cwd : Option String) (rows cols : U16)
  | Write (session_id : String) (data : String)
  | Resize (session_id : String) (rows cols : U16)
  | Attach (session_id : String)
  | Detach (session_id : String)
  | Kill (session_id : String)
  | List
  | Ping
deriving DecidableEq

/-- `ServerMessage` (`protocol.rs`). -/
inductive ServerMessage where
  | Spawned (session_id : String)
  | Output (session_id : String) (data : String)
  | Exited (session_id : String) (exit_code : Option Int32)
  | Attached (session_id : String) (buffer : String) (rows cols : U16)
  | Sessions (sessions : List SessionInfo)
  | Error (message : String)
  | Pong
  | Ok

def encodeOptStr : Option String → Json
  | none => Json.null
  | some s => Json.str s

def encodeU16 (v : U16) : Json := Json.num (Int.ofNat v.val)

def encodeI32 (v : Int32) : Json := Json.num v.val

def encodeOptI32 : Option Int32 → Json
  | none => Json.null
  | some v => encodeI32 v

def decodeStr : Json → Option String
  | Json.str s => some s
  | _ => none

def decodeBool : Json → Option Bool
  | Json.bool b => some b
  | _ => none

def decodeU16 : Json → Option U16
  | Json.num (Int.ofNat m) => if h : m < 65536 then some ⟨m, h⟩ else none
  | _ => none

def decodeI32 : Json → Option Int32
  | Json.num n =>
      if h : -2147483648 ≤ n ∧ n < 2147483648 then some ⟨n, h⟩ else none
  | _ => none

def decodeOptStr : Json → Option (Option String)
  | Json.null => some none
  | Json.str s => some (some s)
  | _ => none

def decodeOptI32 : Json → Option (Option Int32)
  | Json.null => some none
  | j => (decodeI32 j).map some

/-- A missing `Option` field decodes as `None` (serde's special case). -/
def decodeOptStrField : Option Json → Option (Option String)
  | none => some none
  | some j => decodeOptStr j

def decodeOptI32Field : Option Json → Option (Option Int32)
  | none => some none
  | some j => decodeOptI32 j

/-- The `payload` key of an adjacently tagged value, as an object. -/
def payloadObj (fields : List (String × Json)) : Option (List (String × Json)) :=
  match List.lookup "payload" fields with
  | some (Json.obj p) => some p
  | _ => none

/-- Serialization of `ClientMessage` as derived by
`#[serde(tag = "type", content = "payload")]`. -/
def encodeClientMessage : ClientMessage → Json
  | ClientMessage.Spawn sid cwd rows cols =>
      Json.obj [("type", Json.str "Spawn"),
        ("payload", Json.obj [("session_id", Json.str sid), ("cwd", encodeOptStr cwd),
          ("rows", encodeU16 rows), ("cols", encodeU16 cols)])]
  | ClientMessage.Write sid data =>
      Json.obj [("type", Json.str "Write"),
        ("payload", Json.obj [("session_id", Json.str sid), ("data", Json.str data)])]
  | ClientMessage.Resize sid rows cols =>
      Json.obj [("type", Json.str "Resize"),
        ("payload", Json.obj [("session_id", Json.str sid),
          ("rows", encodeU16 rows), ("cols", encodeU16 cols)])]
  | ClientMessage.Attach sid =>
      Json.obj [("type", Json.str "Attach"),
        ("payload", Json.obj [("session_id", Json.str sid)])]
  | ClientMessage.Detach sid =>
      Json.obj [("type", Json.str "Detach"),
        ("payload", Json.obj [("session_id", Json.str sid)])]
  | ClientMessage.Kill sid =>
      Json.obj [("type", Json.str "Kill"),
        ("payload", Json.obj [("session_id", Json.str sid)])]
  | ClientMessage.List => Json.obj [("type", Json.str "List")]
  | ClientMessage.Ping => Json.obj [("type", Json.str "Ping")]

/-- Deserialization of `ClientMessage` as derived by serde for the adjacent
tagging: dispatch on the `type` string, then read the variant's fields from
the `payload` object by name. -/
def decodeClientMessage (j : Json) : Option ClientMessage :=
  match j with
  | Json.obj fields =>
    match List.lookup "type" fields with
    | some (Json.str tag) =>
      if tag = "Spawn" then do
        let p ← payloadObj fields
        let sid ← (List.lookup "session_id" p).bind decodeStr
        let cwd ← decodeOptStrField (List.lookup "cwd" p)
        let rows ← (List.lookup "rows" p).bind decodeU16
        let cols ← (List.lookup "cols" p).bind decodeU16
        return ClientMessage.Spawn sid cwd rows cols
      else if tag = "Write" then do
        let p ← payloadObj fields
        let sid ← (List.lookup "session_id" p).bind decodeStr
        let data ← (List.lookup "data" p).bind decodeStr
        return ClientMessage.Write sid data
      else if tag = "Resize" then do
        let p ← payloadObj fields
        let sid ← (List.lookup "session_id" p).bind decodeStr
        let rows ← (List.lookup "rows" p).bind decodeU16
        let cols ← (List.lookup "cols" p).bind decodeU16
        return ClientMessage.Resize sid rows cols
      else if tag = "Attach" then do
        let p ← payloadObj fields
        let sid ← (List.lookup "session_id" p).bind decodeStr
        return ClientMessage.Attach sid
      else if tag = "Detach" then do
        let p ← payloadObj fields
        let sid ← (List.lookup "session_id" p).bind decodeStr
        return ClientMessage.Detach sid
      else if tag = "Kill" then do
        let p ← payloadObj fields
        let sid ← (List.lookup "session_id" p).bind decodeStr
        return ClientMessage.Kill sid
      else if tag = "List" then some ClientMessage.List
      else if tag = "Ping" then some ClientMessage.Ping
      else none
    | _ => none
  | _ => none

def encodeSessionInfo (si : SessionInfo) : Json :=
  Json.obj [("id", Json.str si.id), ("cwd", encodeOptStr si.cwd),
    ("rows", encodeU16 si.rows), ("cols", encodeU16 si.cols),
    ("alive", Json.bool si.alive)]

def decodeSessionInfo (j : Json) : Option SessionInfo :=
  match j with
  | Json.obj p => do
      let id ← (List.lookup "id" p).bind decodeStr
      let cwd ← decodeOptStrField (List.lookup "cwd" p)
      let rows ← (List.lookup "rows" p).bind decodeU16
      let cols ← (List.lookup "cols" p).bind decodeU16
      let alive ← (List.lookup "alive" p).bind decodeBool
      return { id := id, cwd := cwd, rows := rows, cols := cols, alive := alive }
  | _ => none

def decodeSessionInfos : List Json → Option (List SessionInfo)
  | [] => some []
  | j :: rest => do
      let si ← decodeSessionInfo j
      let rest' ← decodeSessionInfos rest
      return si :: rest'

/-- Serialization of `ServerMessage` as derived by
`#[serde(tag = "type", content = "payload")]`. -/
def encodeServerMessage : ServerMessage → Json
  | ServerMessage.Spawned sid =>
      Json.obj [("type", Json.str "Spawned"),
        ("payload", Json.obj [("session_id", Json.str sid)])]
  | ServerMessage.Output sid data =>
      Json.obj [("type", Json.str "Output"),
        ("payload", Json.obj [("session_id", Json.str sid), ("data", Json.str data)])]
  | ServerMessage.Exited sid code =>
      Json.obj [("type", Json.str "Exited"),
        ("payload", Json.obj [("session_id", Json.str sid),
          ("exit_code", encodeOptI32 code)])]
  | ServerMessage.Attached sid buffer rows cols =>
      Json.obj [("type", Json.str "Attached"),
        ("payload", Json.obj [("session_id", Json.str sid), ("buffer", Json.str buffer),
          ("rows", encodeU16 rows), ("cols", encodeU16 cols)])]
  | ServerMessage.Sessions sessions =>
      Json.obj [("type", Json.str "Sessions"),
        ("payload", Json.obj [("sessions", Json.arr (sessions.map encodeSessionInfo))])]
  | ServerMessage.Error message =>
      Json.obj [("type", Json.str "Error"),
        ("payload", Json.obj [("message", Json.str message)])]
  | ServerMessage.Pong => Json.obj [("type", Json.str "Pong")]
  | ServerMessage.Ok => Json.obj [("type", Json.str "Ok")]

/-- Deserialization of `ServerMessage`. -/
def decodeServerMessage (j : Json) : Option ServerMessage :=
  match j with
  | Json.obj fields =>
    match List.lookup "type" fields with
    | some (Json.str tag) =>
      if tag = "Spawned" then do
        let p ← payloadObj fields
        let sid ← (List.lookup "session_id" p).bind decodeStr
        return ServerMessage.Spawned sid
      else if tag = "Output" then do
        let p ← payloadObj fields
        let sid ← (List.lookup "session_id" p).bind decodeStr
        let data ← (List.lookup "data" p).bind decodeStr
        return ServerMessage.Output sid data
      else if tag = "Exited" then do
        let p ← payloadObj fields
        let sid ← (List.lookup "session_id" p).bind decodeStr
        let code ← decodeOptI32Field (List.lookup "exit_code" p)
        return ServerMessage.Exited sid code
      else if tag = "Attached" then do
        let p ← payloadObj fields
        let sid ← (List.lookup "session_id" p).bind decodeStr
        let buffer ← (List.lookup "buffer" p).bind decodeStr
        let rows ← (List.lookup "rows" p).bind decodeU16
        let cols ← (List.lookup "cols" p).bind decodeU16
        return ServerMessage.Attached sid buffer rows cols
      else if tag = "Sessions" then do
        let p ← payloadObj fields
        match List.lookup "sessions" p with
        | some (Json.arr elems) => do
            let sessions ← decodeSessionInfos elems
            return ServerMessage.Sessions sessions
        | _ => none
      else if tag = "Error" then do
        let p ← payloadObj fields
        let message ← (List.lookup "message" p).bind decodeStr
        return ServerMessage.Error message
      else if tag = "Pong" then some ServerMessage.Pong
      else if tag = "Ok" then some ServerMessage.Ok
      else none
    | _ => none
  | _ => none

theorem decodeU16_encodeU16 (v : U16) : decodeU16 (encodeU16 v) = some v := by
  simp [encodeU16, decodeU16, v.isLt]

theorem decodeOptStr_encodeOptStr (o : Option String) :
    decodeOptStr (encodeOptStr o) = some o := by
  cases o <;> rfl

theorem decodeOptI32_encodeOptI32 (o : Option Int32) :
    decodeOptI32 (encodeOptI32 o) = some o := by
  cases o with
  | none => rfl
  | some v => simp [encodeOptI32, encodeI32, decodeOptI32, decodeI32, v.2]

theorem decodeSessionInfo_encodeSessionInfo (si : SessionInfo) :
    decodeSessionInfo (encodeSessionInfo si) = some si := by
  cases si with
  | mk id cwd rows cols alive =>
    simp [encodeSessionInfo, decodeSessionInfo, List.lookup, decodeStr, decodeBool,
      decodeOptStrField, decodeOptStr_encodeOptStr, decodeU16_encodeU16]

theorem decodeSessionInfos_map_encode (sessions : List SessionInfo) :
    decodeSessionInfos (sessions.map encodeSessionInfo) = some sessions := by
  induction sessions with
  | nil => rfl
  | cons si rest ih =>
    simp [decodeSessionInfos, decodeSessionInfo_encodeSessionInfo, ih]

/-- C9: serializing any `ClientMessage` or `ServerMessage` to its tagged
JSON wire form and deserializing it back yields the original value. -/
theorem wire_roundtrip :
    (∀ m : ClientMessage, decodeClientMessage (encodeClientMessage m) = some m) ∧
    (∀ m : ServerMessage, decodeServerMessage (encodeServerMessage m) = some m) := by
  constructor
  · intro m
    cases m <;>
      simp [encodeClientMessage, decodeClientMessage, payloadObj, List.lookup,
        decodeStr, decodeOptStrField, decodeOptStr_encodeOptStr, decodeU16_encodeU16]
  · intro m
    cases m <;>
      simp [encodeServerMessage, decodeServerMessage, payloadObj, List.lookup,
        decodeStr, decodeOptStrField, decodeOptStr_encodeOptStr, decodeU16_encodeU16,
        decodeOptI32Field, decodeOptI32_encodeOptI32, decodeSessionInfos_map_encode]

/-! ## Daemon connection handling (`crates/raven-daemon/src/server.rs`,
`session.rs` `SessionManager`)

One client connection's view of the daemon: the shared session registry
(`SessionManager.sessions`) and this connection's attachment set
(`ClientState.attached_sessions`; the stop channels are elided — an
attachment is identified by its session id).  Process-level i/o (PTY spawn,
writes) is modelled on its success path; the frames a connection can emit
are exactly those constructed in `handle_client` / `handle_message` plus the
`Output` frames its streaming tasks forward from the broadcast channel. -/

/-- A live session as the registry sees it (`Session`): the PTY handles and
channels are elided; `resize` never updates the stored `rows`/`cols`. -/
structure MSession where
  cwd : Option String
  rows : U16
  cols : U16
  alive : Bool
  buffer : String
deriving DecidableEq

/-- `SessionManager.sessions`: the registry keyed by session id. -/
abbrev Manager := List (String × MSession)

/-- `HashMap::insert`: replace any existing binding. -/
def mgrInsert (m : Manager) (id : String) (s : MSession) : Manager :=
  (id, s) :: m.filter (fun p => p.1 != id)

/-- `HashMap::remove` (used by `kill`). -/
def mgrRemove (m : Manager) (id : String) : Manager :=
  m.filter (fun p => p.1 != id)

/-- `Session::spawn` on its success path: a fresh session with an empty
scroll-back. -/
def spawnSession (cwd : Option String) (rows cols : U16) : MSession :=
  { cwd := cwd, rows := rows, cols := cols, alive := true, buffer := "" }

/-- `Session::info`. -/
def sessionInfoOf (id : String) (s : MSession) : SessionInfo :=
  { id := id, cwd := s.cwd, rows := s.rows, cols := s.cols, alive := s.alive }

/-- `SessionManager::list`. -/
def listSessions (m : Manager) : List SessionInfo :=
  m.map (fun p => sessionInfoOf p.1 p.2)

/-- `handle_message` (`server.rs`): every command except Attach/Detach maps
to one reply and a registry update.  Attach/Detach reach `unreachable!` in
the source (they are intercepted in `handle_client`); that panic is `none`.
I/o that can fail inside `write`/`resize`/`spawn` is modelled on its success
path — the error branches would only produce further `Error` frames. -/
def handleMessage (msg : ClientMessage) (mgr : Manager) :
    Option (ServerMessage × Manager) :=
  match msg with
  | ClientMessage.Spawn sid cwd rows cols =>
      some (ServerMessage.Spawned sid, mgrInsert mgr sid (spawnSession cwd rows cols))
  | ClientMessage.Write sid _ =>
      match List.lookup sid mgr with
      | some _ => some (ServerMessage.Ok, mgr)
      | none => some (ServerMessage.Error "Session not found", mgr)
  | ClientMessage.Resize sid _ _ =>
      match List.lookup sid mgr with
      | some _ => some (ServerMessage.Ok, mgr)
      | none => some (ServerMessage.Error "Session not found", mgr)
  | ClientMessage.Attach _ => none
  | ClientMessage.Detach _ => none
  | ClientMessage.Kill sid =>
      match List.lookup sid mgr with
      | some _ => some (ServerMessage.Ok, mgrRemove mgr sid)
      | none => some (ServerMessage.Error "Session not found", mgr)
  | ClientMessage.List => some (ServerMessage.Sessions (listSessions mgr), mgr)
  | ClientMessage.Ping => some (ServerMessage.Pong, mgr)

/-- One client connection's state: the shared registry plus this
connection's attachment set. -/
structure DaemonState where
  mgr : Manager
  attached : List String
deriving DecidableEq

/-- An event visible to one connection task: a received line (`some` = its
parsed JSON, `none` = a line that is not valid JSON at all), or a broadcast
chunk delivered to this connection's streaming task for a session. -/
inductive DaemonEvent where
  | line (j : Option Json)
  | ptyOutput (sid : String) (data : String)

/-- The `Error` reply for undecodable lines:
`format!("Invalid message: {}", e)`.  serde's error detail is abstracted to
the empty string; the claims inspect only the fixed prefix. -/
def invalidMessageText : String := "Invalid message: "

/-- One iteration of the `handle_client` loop (plus the forwarding step of a
streaming task, for `ptyOutput` events): the frames written to this
connection and the successor state. -/
def handleEvent (st : DaemonState) (e : DaemonEvent) :
    List ServerMessage × DaemonState :=
  match e with
  | DaemonEvent.ptyOutput sid data =>
      -- the streaming task spawned at attach forwards broadcast output
      if st.attached.contains sid
      then ([ServerMessage.Output sid data], st)
      else ([], st)
  | DaemonEvent.line j =>
    match j.bind decodeClientMessage with
    | none =>
        -- serde_json::from_str failed: reply Error and `continue`
        ([ServerMessage.Error invalidMessageText], st)
    | some (ClientMessage.Attach sid) =>
        -- stop any prior streaming task for this session, then attach
        match List.lookup sid st.mgr with
        | some sess =>
            ([ServerMessage.Attached sid sess.buffer sess.rows sess.cols],
              { st with attached := sid :: st.attached.filter (fun x => x != sid) })
        | none => ([ServerMessage.Error "Session not found"], st)
    | some (ClientMessage.Detach sid) =>
        ([ServerMessage.Ok],
          { st with attached := st.attached.filter (fun x => x != sid) })
    | some msg =>
        match handleMessage msg st.mgr with
        | some (resp, mgr') => ([resp], { st with mgr := mgr' })
        | none => ([], st)   -- not reached: Attach/Detach are handled above

/-- A whole connection: the frames emitted for a sequence of events. -/
def runClient (st : DaemonState) : List DaemonEvent → List ServerMessage × DaemonState
  | [] => ([], st)
  | e :: es =>
      let r := handleEvent st e
      let r2 := runClient r.2 es
      (r.1 ++ r2.1, r2.2)

/-- The JSON line `{"type":"Ping"}`. -/
def pingLine : Json := Json.obj [("type", Json.str "Ping")]

example : decodeClientMessage pingLine = some ClientMessage.Ping := by rfl

/-- C8: a line that does not decode to a `ClientMessage` gets an `Error`
reply whose message starts with (hence contains) `"Invalid message"`, the
connection state is unchanged and the loop continues: a following `Ping`
line still gets its `Pong`, and any further events are processed exactly as
they would have been. -/
theorem invalid_line_keeps_connection (st : DaemonState) (bad : Option Json)
    (rest : List DaemonEvent)
    (hbad : bad.bind decodeClientMessage = none) :
    runClient st (DaemonEvent.line bad :: DaemonEvent.line (some pingLine) :: rest) =
      (ServerMessage.Error invalidMessageText :: ServerMessage.Pong ::
        (runClient st rest).1, (runClient st rest).2) ∧
    ("Invalid message".data).isPrefixOf invalidMessageText.data = true := by
  refine ⟨?_, by decide⟩
  have hping : (some pingLine).bind decodeClientMessage = some ClientMessage.Ping := rfl
  simp [runClient, handleEvent, hbad, hping, handleMessage]

/-- Witness for `invalid_line_keeps_connection`: a non-JSON line then a Ping
on a fresh connection with an empty registry. -/
theorem invalid_line_keeps_connection_witness :
    runClient ⟨[], []⟩ [DaemonEvent.line none, DaemonEvent.line (some pingLine)] =
      ([ServerMessage.Error invalidMessageText, ServerMessage.Pong], ⟨[], []⟩) ∧
    ("Invalid message".data).isPrefixOf invalidMessageText.data = true := by
  have h := invalid_line_keeps_connection ⟨[], []⟩ none [] rfl
  simpa [runClient] using h

/-- Does the daemon frame report a shell exit? -/
def isExited : ServerMessage → Bool
  | ServerMessage.Exited _ _ => true
  | _ => false

/-- No reply `handle_message` produces is an `Exited` frame. -/
theorem handleMessage_not_exited (msg : ClientMessage) (mgr : Manager)
    (resp : ServerMessage) (mgr2 : Manager)
    (h : handleMessage msg mgr = some (resp, mgr2)) : isExited resp = false := by
  cases msg with
  | Spawn sid cwd rows cols => simp only [handleMessage] at h; cases h; rfl
  | Write sid data =>
    simp only [handleMessage] at h
    split at h <;> (cases h; rfl)
  | Resize sid rows cols =>
    simp only [handleMessage] at h
    split at h <;> (cases h; rfl)
  | Attach sid => simp only [handleMessage] at h; cases h
  | Detach sid => simp only [handleMessage] at h; cases h
  | Kill sid =>
    simp only [handleMessage] at h
    split at h <;> (cases h; rfl)
  | List => simp only [handleMessage] at h; cases h; rfl
  | Ping => simp only [handleMessage] at h; cases h; rfl

/-- No single event ever produces an `Exited` frame. -/
theorem handleEvent_not_exited (st : DaemonState) (e : DaemonEvent) :
    ∀ m ∈ (handleEvent st e).1, isExited m = false := by
  intro m hm
  cases e with
  | ptyOutput sid data =>
    simp only [handleEvent] at hm
    split at hm
    · simp at hm; simp [hm, isExited]
    · simp at hm
  | line j =>
    simp only [handleEvent] at hm
    cases hdec : j.bind decodeClientMessage with
    | none => rw [hdec] at hm; simp at hm; simp [hm, isExited]
    | some msg =>
      rw [hdec] at hm
      cases msg with
      | Attach sid =>
        dsimp only [handleMessage] at hm
        cases hlook : List.lookup sid st.mgr with
        | some sess => rw [hlook] at hm; simp at hm; simp [hm, isExited]
        | none => rw [hlook] at hm; simp at hm; simp [hm, isExited]
      | Detach sid => simp at hm; simp [hm, isExited]
      | Spawn sid cwd rows cols =>
        simp [handleMessage] at hm; simp [hm, isExited]
      | Write sid data =>
        dsimp only [handleMessage] at hm
        cases hlook : List.lookup sid st.mgr with
        | some sess => rw [hlook] at hm; simp at hm; simp [hm, isExited]
        | none => rw [hlook] at hm; simp at hm; simp [hm, isExited]
      | Resize sid rows cols =>
        dsimp only [handleMessage] at hm
        cases hlook : List.lookup sid st.mgr with
        | some sess => rw [hlook] at hm; simp at hm; simp [hm, isExited]
        | none => rw [hlook] at hm; simp at hm; simp [hm, isExited]
      | Kill sid =>
        dsimp only [handleMessage] at hm
        cases hlook : List.lookup sid st.mgr with
        | some sess => rw [hlook] at hm; simp at hm; simp [hm, isExited]
        | none => rw [hlook] at hm; simp at hm; simp [hm, isExited]
      | List => simp [handleMessage] at hm; simp [hm, isExited]
      | Ping => simp [handleMessage] at hm; simp [hm, isExited]

/-- C10: over every sequence of client lines and session-output deliveries,
starting from any registry and attachment state, no frame the connection
emits is an `Exited` frame — the variant exists on the wire type but no
daemon code path constructs it. -/
theorem daemon_never_emits_exited (st : DaemonState) (events : List DaemonEvent) :
    ∀ m ∈ (runClient st events).1, isExited m = false := by
  induction events generalizing st with
  | nil => intro m hm; simp [runClient] at hm
  | cons e es ih =>
    intro m hm
    simp only [runClient, List.mem_append] at hm
    rcases hm with hm | hm
    · exact handleEvent_not_exited st e m hm
    · exact ih _ m hm

/-- Witness for `daemon_never_emits_exited`: the Pong frame emitted for a
Ping is not an Exited frame. -/
theorem daemon_never_emits_exited_witness :
    ServerMessage.Pong ∈ (runClient ⟨[], []⟩ [DaemonEvent.line (some pingLine)]).1 ∧
    isExited ServerMessage.Pong = false := by
  refine ⟨?_, ?_⟩
  · simp [runClient, handleEvent, handleMessage,
      show (some pingLine).bind decodeClientMessage = some ClientMessage.Ping from rfl]
  · exact daemon_never_emits_exited ⟨[], []⟩ [DaemonEvent.line (some pingLine)]
      ServerMessage.Pong
      (by simp [runClient, handleEvent, handleMessage,
        show (some pingLine).bind decodeClientMessage = some ClientMessage.Ping from rfl])
